import Mathlib

/-!
Verification development for the Bio-Link-Agent retrieval-and-evaluation core.

The definitions below are a shallow embedding of the Python source:
  - src/server.py                (sex normalization, eligibility filter, semantic trial matcher)
  - src/rag/vector_store.py      (session vector store: index_trials, search)
  - src/rag/graph_store.py       (analyze_text, build_graph, get_visualization_data)
  - evaluation/metrics.py        (precision/recall/F1 at K, MRR, calculate_metrics)

Python strings are modelled as Lean String, with list-of-character implementations
of the Python primitives (strip, upper, lower, slicing) so that concrete inputs
evaluate inside the kernel.  Python None-able values are Option, Python floats are
Rat, external model calls (embedding distance, NER, zero-shot classification) are
function parameters, and exceptions are Except.  Dictionaries coming from the API
clients are modelled as structures whose Option fields conflate a missing key with
a present None value, matching how the code reads them via dict.get.
-/

/-- Python truthiness of an optional string: None and the empty string are falsy. -/
def strTruthy : Option String → Bool
  | none => false
  | some s => s ≠ ""

/-- Python `a or b` on two optional strings (first truthy value, else the second). -/
def pyOr2 (a b : Option String) : Option String :=
  if strTruthy a then a else b

/-- Python `d.get(k) or default` for a string field: default replaces None and "". -/
def pyOrD (a : Option String) (d : String) : String :=
  if strTruthy a then a.getD d else d

/-- Python str(x) of an optional string, as used inside f-strings: None prints as "None". -/
def pyStr (a : Option String) : String :=
  a.getD "None"

/-- Python str.lower, character by character. -/
def pyLower (s : String) : String :=
  ⟨s.data.map Char.toLower⟩

/-- Python str.upper, character by character. -/
def pyUpper (s : String) : String :=
  ⟨s.data.map Char.toUpper⟩

/-- Python str.strip: remove leading and trailing whitespace. -/
def pyStrip (s : String) : String :=
  ⟨((s.data.dropWhile Char.isWhitespace).reverse.dropWhile Char.isWhitespace).reverse⟩

/-- Python slicing s[:n] (by characters). -/
def pyTake (n : Nat) (s : String) : String :=
  ⟨s.data.take n⟩

/-- Python len() of a string (number of characters). -/
def pyLen (s : String) : Nat :=
  s.data.length

/-- Python str.startswith("##"). -/
def startsWithHashHash (s : String) : Bool :=
  ['#', '#'].isPrefixOf s.data

/-- Helper for substring search: does sub occur inside l? -/
def substrAux (sub : List Char) : List Char → Bool
  | [] => sub.isEmpty
  | c :: rest => sub.isPrefixOf (c :: rest) || substrAux sub rest

/-- Python `sub in s` substring containment. -/
def containsSub (s sub : String) : Bool :=
  substrAux sub.data s.data

/-- Structured age range of a candidate trial (age dict built by TrialsClient:
min/max parsed to ints or None, raw strings kept alongside). -/
structure AgeBlock where
  min : Option Int
  max : Option Int
  min_raw : Option String
  max_raw : Option String
deriving Repr, DecidableEq

/-- Locations block of a candidate trial (countries list built by TrialsClient). -/
structure LocBlock where
  countries : List String
deriving Repr, DecidableEq

/-- A candidate trial record as produced by TrialsClient.search_active_trials and
consumed by server.py and the stores.  Option fields model dict.get access. -/
structure TrialRec where
  nct_id : Option String
  idAlt : Option String
  title : Option String
  criteria : Option String
  age : Option AgeBlock
  sex : Option String
  locations : Option LocBlock
  status : Option String
  phase : Option String
deriving Repr, DecidableEq

/-- server.py _normalize_sex: strip and uppercase, then map to MALE / FEMALE / ALL,
returning None for falsy input and for unrecognized values. -/
def normalizeSex (value : Option String) : Option String :=
  match value with
  | none => none
  | some s =>
    if s = "" then none
    else
      let v := pyUpper (pyStrip s)
      if v = "M" || v = "MALE" then some "MALE"
      else if v = "F" || v = "FEMALE" || v = "WOMAN" || v = "WOMEN" then some "FEMALE"
      else if v = "ALL" || v = "ANY" then some "ALL"
      else none

/-- The trial sex used by the filter: _normalize_sex(t.get("sex") or "ALL") or "ALL". -/
def trialSexNorm (t : TrialRec) : String :=
  (normalizeSex (some (pyOrD t.sex "ALL"))).getD "ALL"

/-- Age rule of filter_trials_by_patient: with a provided age, the candidate fails
when the age lies strictly below a present min bound or strictly above a present
max bound; without a provided age the rule is vacuously true. -/
def ageOk (age : Option Int) (t : TrialRec) : Bool :=
  match age with
  | none => true
  | some a =>
    let ab := t.age.getD ⟨none, none, none, none⟩
    let minViolated := match ab.min with | some lo => decide (a < lo) | none => false
    let maxViolated := match ab.max with | some hi => decide (hi < a) | none => false
    !(minViolated || maxViolated)

/-- Sex rule of filter_trials_by_patient: engaged only for a truthy normalized
patient sex; the candidate fails when its normalized sex is neither ALL nor equal
to the patient value. -/
def sexOk (sexNorm : Option String) (t : TrialRec) : Bool :=
  if strTruthy sexNorm then
    let trialSex := trialSexNorm t
    trialSex == "ALL" || trialSex == sexNorm.getD ""
  else true

/-- Country rule of filter_trials_by_patient: engaged only for a truthy normalized
country; a candidate with a non-empty country list fails when the patient country
is not among its normalized countries. -/
def locOk (countryNorm : Option String) (t : TrialRec) : Bool :=
  if strTruthy countryNorm then
    let cn := countryNorm.getD ""
    let trialCountries := (t.locations.getD ⟨[]⟩).countries.map (fun c => pyLower (pyStrip c))
    trialCountries.isEmpty || trialCountries.contains cn
  else true

/-- server.py filter_trials_by_patient: normalize the patient attributes once, then
keep the trials passing the conjunction of the three rules. -/
def filterTrialsByPatient (trialsList : List TrialRec) (age : Option Int)
    (sex country : Option String) : List TrialRec :=
  let sexNorm := if strTruthy sex then normalizeSex sex else none
  let countryNorm := if strTruthy country then country.map (fun c => pyLower (pyStrip c)) else none
  trialsList.filter (fun t => ageOk age t && sexOk sexNorm t && locOk countryNorm t)

/-- The structured min age bound of a trial (age dict access t["age"]["min"]). -/
def trialMinAge (t : TrialRec) : Option Int :=
  match t.age with
  | none => none
  | some ab => ab.min

/-- The structured max age bound of a trial (age dict access t["age"]["max"]). -/
def trialMaxAge (t : TrialRec) : Option Int :=
  match t.age with
  | none => none
  | some ab => ab.max

/-- Spec-side formulation of the age rule: lo ≤ a ≤ hi where an absent bound
imposes no constraint on that side. -/
def ageWithinBounds (a : Int) (lo hi : Option Int) : Bool :=
  (lo.all fun v => decide (v ≤ a)) && (hi.all fun v => decide (a ≤ v))

/-- An entry of the session vector store (chromadb collection "trials_cache"):
id, embedded document text, and the title metadata stored alongside. -/
structure VSEntry where
  id : String
  doc : String
  title : String
deriving Repr, DecidableEq

/-- A match returned by TrialVectorStore.search. -/
structure MatchRes where
  id : String
  title : String
  score : Rat
  snippet : String
deriving Repr, DecidableEq

/-- chromadb upsert of one entry: an existing entry with the same id is
overwritten in place, otherwise the entry is appended. -/
def upsertEntry (store : List VSEntry) (e : VSEntry) : List VSEntry :=
  if store.any (fun x => x.id == e.id) then
    store.map (fun x => if x.id == e.id then e else x)
  else store ++ [e]

/-- The document id used by index_trials: t.get("nct_id") or t.get("id"),
skipped when falsy. -/
def trialDocId (t : TrialRec) : Option String :=
  let tid := if strTruthy t.nct_id then t.nct_id else t.idAlt
  if strTruthy tid then tid else none

/-- The vector store entry built by index_trials for one trial, when the trial
has a truthy id: document text is title, a separator, and the criteria. -/
def trialEntry (t : TrialRec) : Option VSEntry :=
  match trialDocId t with
  | some tid =>
    let title := (t.title).getD "No Title"
    some ⟨tid, title ++ " \n " ++ (t.criteria).getD "", title⟩
  | none => none

/-- TrialVectorStore.index_trials: build entries for the trials with a usable id,
upsert them into the collection, and return the new store with the number of ids
indexed in this call (0 for an empty input, store unchanged). -/
def indexTrials (store : List VSEntry) (trialsList : List TrialRec) : List VSEntry × Nat :=
  if trialsList.isEmpty then (store, 0)
  else
    let entries := trialsList.filterMap trialEntry
    if entries.isEmpty then (store, 0)
    else (entries.foldl upsertEntry store, entries.length)

/-- Insert x into a list sorted by the boolean comparison le, before the first
element that is not below it. -/
def insertLe (le : α → α → Bool) (x : α) : List α → List α
  | [] => [x]
  | y :: ys => if le x y then x :: y :: ys else y :: insertLe le x ys

/-- Insertion sort by a boolean comparison; models the nearest-first order in
which chromadb returns query results. -/
def sortLe (le : α → α → Bool) : List α → List α
  | [] => []
  | x :: xs => insertLe le x (sortLe le xs)

/-- Comparison of store entries by embedding distance of their documents to the
query, the distance function standing for the embedding model plus metric. -/
def distLe (dist : String → String → Rat) (q : String) (a b : VSEntry) : Bool :=
  decide (dist q a.doc ≤ dist q b.doc)

/-- TrialVectorStore.search: the collection returns at most n_results entries in
ascending distance order; each becomes a match with score = 1 - distance and a
300-character snippet of the stored document. -/
def searchStore (dist : String → String → Rat) (store : List VSEntry)
    (patientQuery : String) (nResults : Nat) : List MatchRes :=
  let ranked := sortLe (distLe dist patientQuery) store
  (ranked.take nResults).map (fun e =>
    ⟨e.id, e.title, 1 - dist patientQuery e.doc, pyTake 300 e.doc ++ "..."⟩)

/-- The ids present in a vector store. -/
def storeIds (store : List VSEntry) : List String :=
  store.map VSEntry.id

/-- The ids of the trials a list would index (id set of the eligible candidates). -/
def eligibleIds (ts : List TrialRec) : List String :=
  ts.filterMap trialDocId

/-- Outcome of the match_trials_semantic tool, by return branch of the Python
function; the early branches carry the literal message strings the code builds. -/
inductive MatchResponse where
  | noActiveTrials (msg : String) : MatchResponse
  | noEligible (msg : String) : MatchResponse
  | noSemanticMatches (msg : String) : MatchResponse
  | matched (results : List MatchRes) : MatchResponse
deriving Repr, DecidableEq

/-- The ids carried by a matched response (empty for the signal branches). -/
def responseIds : MatchResponse → List String
  | MatchResponse.matched ms => ms.map MatchRes.id
  | _ => []

/-- server.py match_trials_semantic over already-fetched raw trials (the
ClinicalTrials.gov fetch is the external collaborator): filter by patient
attributes, index the eligible trials into the session store, query with the
patient note clamped to min(limit, count), and return the branch outcome
together with the updated store state. -/
def matchTrialsSemantic (dist : String → String → Rat) (store : List VSEntry)
    (condition patientNote : String) (age : Option Int) (sex country : Option String)
    (limit : Nat) (rawTrials : List TrialRec) : MatchResponse × List VSEntry :=
  if rawTrials.isEmpty then
    (MatchResponse.noActiveTrials
      ("No active recruiting trials found for condition: " ++ condition), store)
  else
    let eligibleTrials := filterTrialsByPatient rawTrials age sex country
    if eligibleTrials.isEmpty then
      (MatchResponse.noEligible
        ("No trials matched the basic eligibility filters "
          ++ "(age/sex/location) for condition: " ++ condition), store)
    else
      let indexed := indexTrials store eligibleTrials
      let found := searchStore dist indexed.fst patientNote (min limit indexed.snd)
      if found.isEmpty then
        (MatchResponse.noSemanticMatches
          ("No semantic matches found among age/sex/location-compatible trials.\n"
            ++ "Try broadening the note or filters."), indexed.fst)
      else
        (MatchResponse.matched found, indexed.fst)

/-- A typed entity extracted by analyze_text. -/
structure EntityRec where
  name : String
  type : String
deriving Repr, DecidableEq

/-- Result of analyze_text: a discourse (PICO) label and the extracted entities. -/
structure AnalyzeResult where
  pico : String
  entities : List EntityRec
deriving Repr, DecidableEq

/-- Output of the external zero-shot classifier: ranked labels. -/
structure PicoOut where
  labels : List String
deriving Repr, DecidableEq

/-- Output span of the external NER pipeline. -/
structure NerEnt where
  word : String
  score : Rat
  entity_group : String
deriving Repr, DecidableEq

/-- The stoplist of generic terms dropped by analyze_text. -/
def bannedWords : List String :=
  ["study", "group", "data", "analysis", "results", "using", "between",
   "associated", "clinical", "patient", "year", "years", "time", "high",
   "during", "after", "before", "treatment", "control", "placebo"]

/-- Character class of the regex [a-zA-Z0-9\s\-\.] used by analyze_text. -/
def charAllowed (c : Char) : Bool :=
  c.isAlphanum || c.isWhitespace || c == '-' || c == '.'

/-- One iteration of the NER post-processing loop of analyze_text: confidence
threshold 0.75, subword and short tokens dropped, stoplist, character class, type
mapping from the entity group, case-insensitive deduplication. -/
def nerEntityStep (acc : List EntityRec) (ent : NerEnt) : List EntityRec :=
  if ent.score < (3 : Rat)/4 then acc
  else
    let word := pyStrip ent.word
    if startsWithHashHash word then acc
    else if pyLen word < 3 then acc
    else if bannedWords.contains (pyLower word) then acc
    else if !(decide (word ≠ "") && word.data.all charAllowed) then acc
    else
      let grp := ent.entity_group
      let etype :=
        if containsSub grp "Chemical" || containsSub grp "Medication" then "Chemical"
        else if containsSub grp "Disease" || containsSub grp "Diagnosis" then "Disease"
        else if containsSub grp "Gene" || containsSub grp "Protein" then "Target"
        else "Concept"
      if acc.any (fun e => pyLower e.name == pyLower word) then acc
      else acc ++ [⟨word, etype⟩]

/-- KnowledgeGraphEngine.analyze_text: short or empty text short-circuits to a
neutral result; the classification and NER calls are external fallible pipelines
and each is wrapped in its own try/except, degrading to the label "Unknown" and
to an empty entity list respectively. -/
def analyzeText (picoPipe : String → Except String PicoOut)
    (nerPipe : String → Except String (List NerEnt)) (text : String) : AnalyzeResult :=
  if text == "" || pyLen text < 10 then ⟨"Background", []⟩
  else
    let shortText := pyTake 512 text
    let pico :=
      match picoPipe shortText with
      | Except.ok res =>
        match res.labels with
        | l :: _ => l
        | [] => "Unknown"
      | Except.error _ => "Unknown"
    let entities :=
      match nerPipe shortText with
      | Except.ok ents => ents.foldl nerEntityStep []
      | Except.error _ => []
    ⟨pico, entities⟩

/-- Properties a graph node can carry (Neo4j node properties set by build_graph;
the field id models the property "id", abstr the property "abstract"). -/
structure NodeProps where
  id : Option String
  name : Option String
  title : Option String
  abstr : Option String
  criteria : Option String
  date : Option String
  journal : Option String
  phase : Option String
  status : Option String
  pico : Option String
deriving Repr, DecidableEq

/-- The all-absent property record (a freshly merged node before any SET). -/
def emptyProps : NodeProps :=
  ⟨none, none, none, none, none, none, none, none, none, none⟩

/-- A property-graph node: Neo4j label, the merge key value, and properties. -/
structure GNode where
  label : String
  key : String
  props : NodeProps
deriving Repr, DecidableEq

/-- A directed property-graph edge between merge-keyed nodes, with relation type
and the optional context property set on MENTIONS edges. -/
structure GEdge where
  srcLabel : String
  srcKey : String
  tgtLabel : String
  tgtKey : String
  rel : String
  context : Option String
deriving Repr, DecidableEq

/-- The property graph held by the Neo4j store. -/
structure KGraph where
  nodes : List GNode
  edges : List GEdge
deriving Repr, DecidableEq

/-- The graph after MATCH (n) DETACH DELETE n. -/
def emptyKGraph : KGraph :=
  ⟨[], []⟩

/-- Does a node match a Cypher pattern (:Label {key}) ? -/
def nodeMatches (label key : String) (n : GNode) : Bool :=
  n.label == label && n.key == key

/-- Cypher MERGE of a node: create it with the given initial properties only when
no node with this label and key exists. -/
def mergeNode (g : KGraph) (label key : String) (init : NodeProps) : KGraph :=
  if g.nodes.any (nodeMatches label key) then g
  else { g with nodes := g.nodes ++ [⟨label, key, init⟩] }

/-- Cypher SET on the node matching the pattern: update its properties. -/
def setProps (g : KGraph) (label key : String) (f : NodeProps → NodeProps) : KGraph :=
  { g with nodes := g.nodes.map (fun n =>
      if nodeMatches label key n then ⟨n.label, n.key, f n.props⟩ else n) }

/-- Does an edge match a source node, target node and relation type? -/
def edgeMatches (sl sk tl tk rel : String) (e : GEdge) : Bool :=
  e.srcLabel == sl && e.srcKey == sk && e.tgtLabel == tl && e.tgtKey == tk && e.rel == rel

/-- Cypher MERGE of an edge: create the (source, target, relation) edge only when
it does not already exist. -/
def mergeEdge (g : KGraph) (sl sk tl tk rel : String) : KGraph :=
  if g.edges.any (edgeMatches sl sk tl tk rel) then g
  else { g with edges := g.edges ++ [⟨sl, sk, tl, tk, rel, none⟩] }

/-- Cypher SET r.context on the matched edge. -/
def setEdgeContext (g : KGraph) (sl sk tl tk rel : String) (ctx : Option String) : KGraph :=
  { g with edges := g.edges.map (fun e =>
      if edgeMatches sl sk tl tk rel e then
        ⟨e.srcLabel, e.srcKey, e.tgtLabel, e.tgtKey, e.rel, ctx⟩
      else e) }

/-- A paper record as produced by PubMedClient (id and title always present). -/
structure PaperRec where
  id : String
  title : String
  abstr : Option String
  date : Option String
  journal : Option String
deriving Repr, DecidableEq

/-- One entity query of the paper loop: MATCH the paper node, MERGE the typed
entity node keyed by name, MERGE the MENTIONS edge and SET its context to the
discourse label.  A failed MATCH produces no rows, hence no writes. -/
def paperEntityStep (pid pico : String) (g : KGraph) (ent : EntityRec) : KGraph :=
  if g.nodes.any (nodeMatches "Paper" pid) then
    let g1 := mergeNode g ent.type ent.name { emptyProps with name := some ent.name }
    let g2 := mergeEdge g1 "Paper" pid ent.type ent.name "MENTIONS"
    setEdgeContext g2 "Paper" pid ent.type ent.name "MENTIONS" (some pico)
  else g

/-- Paper ingestion of build_graph: analyze the abstract, MERGE the Paper node
keyed by its external id, SET its attributes, then process each entity. -/
def ingestPaper (analyze : String → AnalyzeResult) (g : KGraph) (p : PaperRec) : KGraph :=
  let nlp := analyze (p.abstr.getD "")
  let g1 := mergeNode g "Paper" p.id { emptyProps with id := some p.id }
  let g2 := setProps g1 "Paper" p.id (fun pr =>
    { pr with title := some p.title, date := p.date, journal := p.journal,
              pico := some nlp.pico, abstr := p.abstr })
  nlp.entities.foldl (paperEntityStep p.id nlp.pico) g2

/-- One entity query of the trial loop: MATCH the trial node, MERGE the entity
node, MERGE an INVESTIGATES edge for chemicals and RECRUITS_FOR otherwise. -/
def trialEntityStep (tid : String) (g : KGraph) (ent : EntityRec) : KGraph :=
  if g.nodes.any (nodeMatches "Trial" tid) then
    let rel := if ent.type == "Chemical" then "INVESTIGATES" else "RECRUITS_FOR"
    let g1 := mergeNode g ent.type ent.name { emptyProps with name := some ent.name }
    mergeEdge g1 "Trial" tid ent.type ent.name rel
  else g

/-- Trial ingestion of build_graph: t["nct_id"] and t["title"] are accessed
directly, so a missing id (or a null id, which Cypher MERGE rejects) or a
missing title raises out of build_graph; otherwise MERGE the Trial node, SET its
attributes, analyze title plus criteria and process each entity. -/
def ingestTrial (analyze : String → AnalyzeResult) (g : KGraph) (t : TrialRec) :
    Except String KGraph :=
  match t.nct_id, t.title with
  | some tid, some ttl =>
    let g1 := mergeNode g "Trial" tid { emptyProps with id := some tid }
    let g2 := setProps g1 "Trial" tid (fun pr =>
      { pr with title := some ttl, phase := t.phase, status := t.status,
                criteria := t.criteria })
    let nlp := analyze (ttl ++ " " ++ t.criteria.getD "")
    Except.ok (nlp.entities.foldl (trialEntityStep tid) g2)
  | _, _ => Except.error "trial record is missing nct_id or title"

/-- KnowledgeGraphEngine.build_graph: clear the whole store, ingest every paper,
then ingest every trial.  The extractor is a parameter (the same deterministic
function for every document of one build). -/
def buildGraph (analyze : String → AnalyzeResult) (g0 : KGraph)
    (papers : List PaperRec) (trialsList : List TrialRec) : Except String KGraph :=
  let cleared := emptyKGraph
  let afterPapers := papers.foldl (ingestPaper analyze) cleared
  trialsList.foldlM (ingestTrial analyze) afterPapers

/-- The merge identity of a node: its Neo4j label together with its key. -/
def nodeKeyOf (n : GNode) : String × String :=
  (n.label, n.key)

/-- The merge identity of an edge: endpoints and relation type. -/
def edgeSigOf (e : GEdge) : String × String × String × String × String :=
  (e.srcLabel, e.srcKey, e.tgtLabel, e.tgtKey, e.rel)

/-- Well-formedness of the graph store contents: no two nodes share a merge key
and no two edges share a (source, target, relation) triple. -/
def GraphWF (g : KGraph) : Prop :=
  (g.nodes.map nodeKeyOf).Nodup ∧ (g.edges.map edgeSigOf).Nodup

/-- A node of the visualization payload: {id, label, title (tooltip), color, size}. -/
structure VisNode where
  id : String
  label : String
  title : String
  color : String
  size : Nat
deriving Repr, DecidableEq

/-- An edge of the visualization payload: {source, target, label}. -/
structure VisEdge where
  source : String
  target : String
  label : String
deriving Repr, DecidableEq

/-- Color and tooltip of one node record, by label; the Paper and Trial tooltips
slice the abstract and criteria properties, which raises a TypeError when the
property is null. -/
def nodeTooltip (n : GNode) (labelText : String) : Except String (String × String) :=
  if [n.label].contains "Paper" then
    match n.props.abstr with
    | some ab =>
      Except.ok ("#ef5350",
        "📄 PAPER: " ++ labelText ++ "\n\n📅 " ++ pyStr n.props.date ++ " | 📖 "
          ++ pyStr n.props.journal ++ "\n\n📝 ABSTRACT:\n" ++ pyTake 400 ab ++ "...")
    | none => Except.error "TypeError: NoneType is not subscriptable"
  else if [n.label].contains "Trial" then
    match n.props.criteria with
    | some cr =>
      Except.ok ("#66bb6a",
        "🏥 TRIAL: " ++ labelText ++ "\n\n🚦 " ++ pyStr n.props.status ++ " | 📊 "
          ++ pyStr n.props.phase ++ "\n\n📋 CRITERIA:\n" ++ pyTake 400 cr ++ "...")
    | none => Except.error "TypeError: NoneType is not subscriptable"
  else if [n.label].contains "Chemical" then
    Except.ok ("#42a5f5", "💊 DRUG: " ++ labelText)
  else if [n.label].contains "Disease" then
    Except.ok ("#ffa726", "🦠 DISEASE: " ++ labelText)
  else
    Except.ok ("#bdbdbd", "Concept: " ++ labelText)

/-- Node size of the visualization payload: 25 unless "Concept" occurs in the
Python str() of the label list. -/
def nodeSize (n : GNode) : Nat :=
  if containsSub ("['" ++ n.label ++ "']") "Concept" then 15 else 25

/-- Node loop of get_visualization_data: nid is n.id or n.name, falsy nids and
already seen nids are skipped, every emitted node also enters the seen set. -/
def visNodesAux : List GNode → List VisNode → List String →
    Except String (List VisNode × List String)
  | [], acc, seen => Except.ok (acc, seen)
  | n :: rest, acc, seen =>
    let nid0 := pyOr2 n.props.id n.props.name
    if !strTruthy nid0 then visNodesAux rest acc seen
    else
      let nid := nid0.getD ""
      if seen.contains nid then visNodesAux rest acc seen
      else
        let labelText := pyOrD (pyOr2 n.props.title n.props.name) "Node"
        match nodeTooltip n labelText with
        | Except.error e => Except.error e
        | Except.ok ct =>
          visNodesAux rest
            (acc ++ [⟨nid, pyTake 15 labelText ++ "...", ct.2, ct.1, nodeSize n⟩])
            (seen ++ [nid])

/-- Find the node a Cypher edge endpoint refers to. -/
def findNode (g : KGraph) (label key : String) : Option GNode :=
  g.nodes.find? (nodeMatches label key)

/-- Edge loop of get_visualization_data: an edge is emitted only when the id (or
name) of both endpoint nodes is in the seen set of the node loop. -/
def visEdges (g : KGraph) (seen : List String) : List VisEdge :=
  g.edges.filterMap (fun e =>
    match findNode g e.srcLabel e.srcKey, findNode g e.tgtLabel e.tgtKey with
    | some a, some b =>
      match pyOr2 a.props.id a.props.name, pyOr2 b.props.id b.props.name with
      | some s, some t =>
        if seen.contains s && seen.contains t then some ⟨s, t, e.rel⟩ else none
      | _, _ => none
    | _, _ => none)

/-- KnowledgeGraphEngine.get_visualization_data: deduplicated node list, then the
edge list restricted to seen endpoints. -/
def getVisualizationData (g : KGraph) : Except String (List VisNode × List VisEdge) :=
  match visNodesAux g.nodes [] [] with
  | Except.error e => Except.error e
  | Except.ok ns => Except.ok (ns.1, visEdges g ns.2)

/-- Aggregated metrics record of evaluation/metrics.py (floats as Rat). -/
structure EvaluationMetrics where
  precision_at_1 : Rat
  precision_at_3 : Rat
  precision_at_5 : Rat
  precision_at_10 : Rat
  recall_at_1 : Rat
  recall_at_3 : Rat
  recall_at_5 : Rat
  recall_at_10 : Rat
  f1_at_1 : Rat
  f1_at_3 : Rat
  f1_at_5 : Rat
  f1_at_10 : Rat
  mean_reciprocal_rank : Rat
  avg_score_correct : Rat
  avg_score_incorrect : Rat
  score_difference : Rat
  num_cases : Nat
  num_cases_with_matches : Nat
  num_cases_with_correct_matches : Nat
deriving Repr, DecidableEq

/-- precision_at_k: fraction of the first k predictions present in the ground
truth; 0 when either list is empty or the slice is empty. -/
def precisionAtK (predicted groundTruth : List String) (k : Nat) : Rat :=
  if predicted.isEmpty || groundTruth.isEmpty then 0
  else
    let topK := predicted.take k
    if topK.isEmpty then 0
    else ((topK.filter (fun x => groundTruth.contains x)).length : Rat) / (topK.length : Rat)

/-- recall_at_k: fraction of the ground truth present in the first k predictions;
0 when either list is empty. -/
def recallAtK (predicted groundTruth : List String) (k : Nat) : Rat :=
  if groundTruth.isEmpty then 0
  else if predicted.isEmpty then 0
  else
    let topK := predicted.take k
    ((topK.filter (fun x => groundTruth.contains x)).length : Rat) / (groundTruth.length : Rat)

/-- f1_at_k: harmonic mean of precision and recall at k; 0 when both are 0. -/
def f1AtK (predicted groundTruth : List String) (k : Nat) : Rat :=
  let prec := precisionAtK predicted groundTruth k
  let recl := recallAtK predicted groundTruth k
  if prec + recl = 0 then 0
  else 2 * (prec * recl) / (prec + recl)

/-- Reciprocal rank scan: 1/rank of the first prediction in the ground truth. -/
def rrAux (groundTruth : List String) : Nat → List String → Rat
  | _, [] => 0
  | rank, x :: rest =>
    if groundTruth.contains x then 1 / (rank : Rat) else rrAux groundTruth (rank + 1) rest

/-- mean_reciprocal_rank of one case: 0 when either list is empty, else 1/rank of
the first correct prediction (1-indexed). -/
def meanReciprocalRank (predicted groundTruth : List String) : Rat :=
  if predicted.isEmpty || groundTruth.isEmpty then 0
  else rrAux groundTruth 1 predicted

/-- Python truthiness of the optional all_scores argument: None and [] are falsy. -/
def scoresTruthy : Option (List (List Rat)) → Bool
  | none => false
  | some [] => false
  | some (_ :: _) => true

/-- np.mean with the empty-list guard calculate_metrics puts around it. -/
def listMean (l : List Rat) : Rat :=
  if l.isEmpty then 0 else l.sum / (l.length : Rat)

/-- Scores of one case split into those attached to a correct prediction and to
an incorrect one; zipping drops trailing predictions without a score, matching
the j < len(scores) guard. -/
def scoreSplit (groundTruth predicted : List String) (scoresI : List Rat) :
    List Rat × List Rat :=
  let pairs := predicted.zip scoresI
  ((pairs.filter (fun pr => groundTruth.contains pr.1)).map Prod.snd,
   (pairs.filter (fun pr => !groundTruth.contains pr.1)).map Prod.snd)

/-- Score collection across cases: reached only when all_scores is truthy, and
per case only when the case has predictions and a non-empty score list. -/
def collectScores (allScores : Option (List (List Rat)))
    (cases : List (List String × List String)) : List Rat × List Rat :=
  match allScores with
  | none => ([], [])
  | some [] => ([], [])
  | some ss =>
    ((cases.enum.flatMap fun ic =>
        if ic.2.1.isEmpty then []
        else
          let si := ss.getD ic.1 []
          if si.isEmpty then [] else (scoreSplit ic.2.2 ic.2.1 si).1),
     (cases.enum.flatMap fun ic =>
        if ic.2.1.isEmpty then []
        else
          let si := ss.getD ic.1 []
          if si.isEmpty then [] else (scoreSplit ic.2.2 ic.2.1 si).2))

/-- calculate_metrics: raise on mismatched prediction/ground-truth lengths, raise
on a truthy scores argument of mismatched length, then aggregate the per-case
metrics at K in {1, 3, 5, 10}.  The per-case loop appends 0.0 for every metric of
a case without predictions, which coincides with the value of each metric
function on an empty prediction list. -/
def calculateMetrics (allPredictions allGroundTruth : List (List String))
    (allScores : Option (List (List Rat))) : Except String EvaluationMetrics :=
  if allPredictions.length ≠ allGroundTruth.length then
    Except.error "Predictions and ground truth must have same length"
  else if scoresTruthy allScores ∧ (allScores.getD []).length ≠ allPredictions.length then
    Except.error "Scores must have same length as predictions"
  else
    let cases := allPredictions.zip allGroundTruth
    let scores := collectScores allScores cases
    let avgCorrect := listMean scores.1
    let avgIncorrect := listMean scores.2
    Except.ok
      { precision_at_1 := listMean (cases.map fun c => precisionAtK c.1 c.2 1)
        precision_at_3 := listMean (cases.map fun c => precisionAtK c.1 c.2 3)
        precision_at_5 := listMean (cases.map fun c => precisionAtK c.1 c.2 5)
        precision_at_10 := listMean (cases.map fun c => precisionAtK c.1 c.2 10)
        recall_at_1 := listMean (cases.map fun c => recallAtK c.1 c.2 1)
        recall_at_3 := listMean (cases.map fun c => recallAtK c.1 c.2 3)
        recall_at_5 := listMean (cases.map fun c => recallAtK c.1 c.2 5)
        recall_at_10 := listMean (cases.map fun c => recallAtK c.1 c.2 10)
        f1_at_1 := listMean (cases.map fun c => f1AtK c.1 c.2 1)
        f1_at_3 := listMean (cases.map fun c => f1AtK c.1 c.2 3)
        f1_at_5 := listMean (cases.map fun c => f1AtK c.1 c.2 5)
        f1_at_10 := listMean (cases.map fun c => f1AtK c.1 c.2 10)
        mean_reciprocal_rank := listMean (cases.map fun c => meanReciprocalRank c.1 c.2)
        avg_score_correct := avgCorrect
        avg_score_incorrect := avgIncorrect
        score_difference :=
          if !scores.1.isEmpty && !scores.2.isEmpty then avgCorrect - avgIncorrect else 0
        num_cases := allPredictions.length
        num_cases_with_matches := (cases.filter fun c => !c.1.isEmpty).length
        num_cases_with_correct_matches :=
          (cases.filter fun c =>
            !c.1.isEmpty && decide (0 < meanReciprocalRank c.1 c.2)).length }

/-- C3: for every provided patient age, the filter (with no other attribute
provided) retains a candidate exactly when the age lies within its optional
bounds, an absent bound imposing no constraint. -/
theorem filterTrials_age_rule (ts : List TrialRec) (t : TrialRec) (a : Int) :
    t ∈ filterTrialsByPatient ts (some a) none none ↔
      t ∈ ts ∧ ageWithinBounds a (trialMinAge t) (trialMaxAge t) = true := by
  unfold filterTrialsByPatient
  simp only [strTruthy, if_neg, Bool.false_eq_true, if_false]
  rw [List.mem_filter]
  have hsex : sexOk none t = true := by simp [sexOk, strTruthy]
  have hloc : locOk none t = true := by simp [locOk, strTruthy]
  rw [hsex, hloc]
  simp only [Bool.and_true]
  constructor
  · rintro ⟨hmem, hage⟩
    refine ⟨hmem, ?_⟩
    unfold ageOk at hage
    unfold ageWithinBounds trialMinAge trialMaxAge
    cases hab : t.age with
    | none => simp
    | some ab =>
      rw [hab] at hage
      simp only [Option.getD_some] at hage
      cases hmin : ab.min <;> cases hmax : ab.max <;>
        simp only [hmin, hmax, Option.all_some, Option.all_none, Bool.and_true,
          Bool.true_and] at hage ⊢ <;>
        simp_all
  · rintro ⟨hmem, hbounds⟩
    refine ⟨hmem, ?_⟩
    unfold ageWithinBounds trialMinAge trialMaxAge at hbounds
    unfold ageOk
    cases hab : t.age with
    | none => simp
    | some ab =>
      rw [hab] at hbounds
      simp only [Option.getD_some]
      cases hmin : ab.min <;> cases hmax : ab.max <;>
        simp only [hmin, hmax, Option.all_some, Option.all_none, Bool.and_true,
          Bool.true_and] at hbounds ⊢ <;>
        simp_all

/-- Witness for C3 at a concrete input: a 30-year-old patient is retained by a
trial with bounds [18, 65]. -/
theorem filterTrials_age_rule_witness :
    (⟨some "NCT1", none, some "T", some "C", some ⟨some 18, some 65, some "18 Years", some "65 Years"⟩,
        some "ALL", some ⟨["United States"]⟩, some "RECRUITING", some "PHASE2"⟩ : TrialRec) ∈
      filterTrialsByPatient
        [⟨some "NCT1", none, some "T", some "C", some ⟨some 18, some 65, some "18 Years", some "65 Years"⟩,
          some "ALL", some ⟨["United States"]⟩, some "RECRUITING", some "PHASE2"⟩]
        (some 30) none none :=
  (filterTrials_age_rule _ _ 30).mpr (by decide)

/-- Every successful result of _normalize_sex is MALE, FEMALE, or ALL. -/
theorem normalizeSex_cases (v : Option String) (sn : String)
    (h : normalizeSex v = some sn) :
    sn = "MALE" ∨ sn = "FEMALE" ∨ sn = "ALL" := by
  unfold normalizeSex at h
  cases v with
  | none => exact Option.noConfusion h
  | some s =>
    dsimp only at h
    split at h
    · exact Option.noConfusion h
    · split at h
      · exact Or.inl (Option.some.inj h).symm
      · split at h
        · exact Or.inr (Or.inl (Option.some.inj h).symm)
        · split at h
          · exact Or.inr (Or.inr (Option.some.inj h).symm)
          · exact Option.noConfusion h

/-- C4: when the provided patient sex normalizes successfully, a candidate whose
normalized sex eligibility is ALL passes the sex rule regardless, and otherwise
the candidate passes exactly when its normalized sex equals the patient value. -/
theorem sexRule_normalized_patient (s sn : String) (t : TrialRec)
    (h : normalizeSex (some s) = some sn) :
    (trialSexNorm t = "ALL" → sexOk (normalizeSex (some s)) t = true) ∧
      (trialSexNorm t ≠ "ALL" →
        (sexOk (normalizeSex (some s)) t = true ↔ trialSexNorm t = sn)) := by
  have hsn : sn ≠ "" := by
    rcases normalizeSex_cases (some s) sn h with h1 | h1 | h1 <;> subst h1 <;> decide
  rw [h]
  have htr : strTruthy (some sn) = true := by
    simp [strTruthy, hsn]
  unfold sexOk
  simp only [htr, if_true, Option.getD_some, Bool.or_eq_true, beq_iff_eq]
  constructor
  · intro hall
    exact Or.inl hall
  · intro hne
    constructor
    · intro hpass
      rcases hpass with hl | hr
      · exact absurd hl hne
      · exact hr
    · intro heq
      exact Or.inr heq

/-- Witness for C4 at a concrete input: patient sex "male" normalizes to MALE and
passes the sex rule of a MALE-only trial, via the equivalence. -/
theorem sexRule_normalized_patient_witness :
    sexOk (normalizeSex (some "male"))
        (⟨some "NCT9", none, some "T", some "C", none, some "MALE", none, none, none⟩ : TrialRec) = true :=
  ((sexRule_normalized_patient "male" "MALE"
      ⟨some "NCT9", none, some "T", some "C", none, some "MALE", none, none, none⟩
      (by decide)).2 (by decide)).mpr (by decide)

/-- C10: a candidate whose sex field fails to normalize (missing, empty, or an
unrecognized string) is treated as ALL by the filter and passes the sex rule for
every patient sex value. -/
theorem unrecognizedTrialSex_passes (t : TrialRec) (sexNorm : Option String)
    (h : normalizeSex t.sex = none) :
    sexOk sexNorm t = true := by
  have hall : trialSexNorm t = "ALL" := by
    unfold trialSexNorm pyOrD
    cases hsex : t.sex with
    | none => decide
    | some s =>
      rw [hsex] at h
      by_cases hs : s = ""
      · subst hs
        decide
      · have : strTruthy (some s) = true := by simp [strTruthy, hs]
        rw [this]
        simp only [if_true, Option.getD_some]
        rw [h]
        rfl
  unfold sexOk
  split
  · rw [hall]
    simp
  · rfl

/-- Witness for C10 at a concrete input: an unrecognized trial sex string passes
the sex rule against a FEMALE patient. -/
theorem unrecognizedTrialSex_passes_witness :
    sexOk (some "FEMALE")
      (⟨some "NCT2", none, some "T", some "C", none, some "nonbinary", none, none, none⟩ : TrialRec) = true :=
  unrecognizedTrialSex_passes
    ⟨some "NCT2", none, some "T", some "C", none, some "nonbinary", none, none, none⟩
    (some "FEMALE") (by decide)

/-- Membership in an insertion step. -/
theorem mem_insertLe (le : α → α → Bool) (x : α) (l : List α) (y : α) :
    y ∈ insertLe le x l ↔ y = x ∨ y ∈ l := by
  induction l with
  | nil => simp [insertLe]
  | cons z zs ih =>
    unfold insertLe
    split
    · constructor
      · intro h
        rcases List.mem_cons.mp h with h1 | h1
        · exact Or.inl h1
        · exact Or.inr h1
      · intro h
        rcases h with h1 | h1
        · exact List.mem_cons.mpr (Or.inl h1)
        · exact List.mem_cons.mpr (Or.inr h1)
    · rw [List.mem_cons, ih, List.mem_cons]
      tauto

/-- Membership is preserved by the sort used to model nearest-first results. -/
theorem mem_sortLe (le : α → α → Bool) (l : List α) (y : α) :
    y ∈ sortLe le l ↔ y ∈ l := by
  induction l with
  | nil => simp [sortLe]
  | cons z zs ih =>
    unfold sortLe
    rw [mem_insertLe, ih, List.mem_cons]

/-- Length of an insertion step. -/
theorem length_insertLe (le : α → α → Bool) (x : α) (l : List α) :
    (insertLe le x l).length = l.length + 1 := by
  induction l with
  | nil => rfl
  | cons z zs ih =>
    unfold insertLe
    split
    · rfl
    · simp [ih]

/-- Length is preserved by the sort. -/
theorem length_sortLe (le : α → α → Bool) (l : List α) :
    (sortLe le l).length = l.length := by
  induction l with
  | nil => rfl
  | cons z zs ih =>
    unfold sortLe
    rw [length_insertLe, ih]
    rfl

/-- Insertion into a list sorted for a total transitive boolean comparison stays sorted. -/
theorem pairwise_insertLe (le : α → α → Bool)
    (htot : ∀ a b, le a b = true ∨ le b a = true)
    (htrans : ∀ a b c, le a b = true → le b c = true → le a c = true)
    (x : α) (l : List α) (h : l.Pairwise (fun a b => le a b = true)) :
    (insertLe le x l).Pairwise (fun a b => le a b = true) := by
  induction l with
  | nil => simp [insertLe]
  | cons z zs ih =>
    rcases List.pairwise_cons.mp h with ⟨hz, hzs⟩
    unfold insertLe
    split
    · rename_i hxz
      refine List.pairwise_cons.mpr ⟨?_, h⟩
      intro y hy
      rcases List.mem_cons.mp hy with h1 | h1
      · subst h1; exact hxz
      · exact htrans x z y hxz (hz y h1)
    · rename_i hxz
      have hzx : le z x = true := by
        rcases htot x z with h1 | h1
        · exact absurd h1 hxz
        · exact h1
      refine List.pairwise_cons.mpr ⟨?_, ih hzs⟩
      intro y hy
      rcases (mem_insertLe le x zs y).mp hy with h1 | h1
      · subst h1; exact hzx
      · exact hz y h1

/-- The sort produces a list sorted for a total transitive boolean comparison. -/
theorem pairwise_sortLe (le : α → α → Bool)
    (htot : ∀ a b, le a b = true ∨ le b a = true)
    (htrans : ∀ a b c, le a b = true → le b c = true → le a c = true)
    (l : List α) :
    (sortLe le l).Pairwise (fun a b => le a b = true) := by
  induction l with
  | nil => simp [sortLe]
  | cons z zs ih =>
    exact pairwise_insertLe le htot htrans z (sortLe le zs) ih

/-- Every search result is built from a store entry by the score formula. -/
theorem searchStore_mem (dist : String → String → Rat) (store : List VSEntry)
    (q : String) (n : Nat) (m : MatchRes) (hm : m ∈ searchStore dist store q n) :
    ∃ e, e ∈ store ∧ m = ⟨e.id, e.title, 1 - dist q e.doc, pyTake 300 e.doc ++ "..."⟩ := by
  unfold searchStore at hm
  rcases List.mem_map.mp hm with ⟨e, he, hme⟩
  refine ⟨e, ?_, hme.symm⟩
  have h1 : e ∈ sortLe (distLe dist q) store :=
    (List.take_sublist n _).mem he
  exact (mem_sortLe _ store e).mp h1

/-- A search returns at most n_results matches. -/
theorem searchStore_length (dist : String → String → Rat) (store : List VSEntry)
    (q : String) (n : Nat) :
    (searchStore dist store q n).length ≤ n := by
  unfold searchStore
  rw [List.length_map, List.length_take]
  exact Nat.min_le_left _ _

/-- Search results are ordered by weakly decreasing score. -/
theorem searchStore_sorted (dist : String → String → Rat) (store : List VSEntry)
    (q : String) (n : Nat) :
    (searchStore dist store q n).Pairwise (fun a b => b.score ≤ a.score) := by
  unfold searchStore
  rw [List.pairwise_map]
  have hsorted := pairwise_sortLe (distLe dist q)
    (fun a b => by
      unfold distLe
      rcases le_total (dist q a.doc) (dist q b.doc) with h | h
      · exact Or.inl (decide_eq_true h)
      · exact Or.inr (decide_eq_true h))
    (fun a b c hab hbc => by
      unfold distLe at hab hbc ⊢
      exact decide_eq_true (le_trans (of_decide_eq_true hab) (of_decide_eq_true hbc)))
    store
  have htake := hsorted.sublist (List.take_sublist n _)
  refine htake.imp ?_
  intro a b hab
  unfold distLe at hab
  have := of_decide_eq_true hab
  simp only []
  linarith

/-- The ids of an upserted store are among the old ids plus the new id. -/
theorem storeIds_upsertEntry (s : List VSEntry) (e : VSEntry) (x : String)
    (hx : x ∈ storeIds (upsertEntry s e)) : x ∈ storeIds s ∨ x = e.id := by
  unfold upsertEntry at hx
  split at hx
  · unfold storeIds at hx ⊢
    rcases List.mem_map.mp hx with ⟨y, hy, hxy⟩
    rcases List.mem_map.mp hy with ⟨z, hz, hzy⟩
    by_cases hc : (z.id == e.id) = true
    · rw [if_pos hc] at hzy
      subst hzy
      exact Or.inr hxy.symm
    · rw [if_neg hc] at hzy
      subst hzy
      exact Or.inl (List.mem_map.mpr ⟨z, hz, hxy⟩)
  · unfold storeIds at hx ⊢
    rw [List.map_append] at hx
    rcases List.mem_append.mp hx with h1 | h1
    · exact Or.inl h1
    · simp only [List.map_cons, List.map_nil, List.mem_singleton] at h1
      exact Or.inr h1

/-- The ids after folding upserts are among the old ids plus the upserted ids. -/
theorem storeIds_foldl_upsert (es : List VSEntry) (s : List VSEntry) (x : String)
    (hx : x ∈ storeIds (es.foldl upsertEntry s)) :
    x ∈ storeIds s ∨ ∃ e, e ∈ es ∧ x = e.id := by
  induction es generalizing s with
  | nil => exact Or.inl hx
  | cons e es ih =>
    rw [List.foldl_cons] at hx
    rcases ih (upsertEntry s e) hx with h1 | h1
    · rcases storeIds_upsertEntry s e x h1 with h2 | h2
      · exact Or.inl h2
      · exact Or.inr ⟨e, List.mem_cons_self e es, h2⟩
    · rcases h1 with ⟨e2, he2, hx2⟩
      exact Or.inr ⟨e2, List.mem_cons_of_mem e he2, hx2⟩

/-- An entry built from a trial carries the trial document id. -/
theorem trialEntry_id (t : TrialRec) (e : VSEntry) (h : trialEntry t = some e) :
    trialDocId t = some e.id := by
  unfold trialEntry at h
  cases hd : trialDocId t with
  | none => rw [hd] at h; exact Option.noConfusion h
  | some tid =>
    rw [hd] at h
    simp only [Option.some.injEq] at h
    subst h
    rfl

/-- Every id present after index_trials was present before or belongs to the
indexed trial list. -/
theorem indexTrials_ids (s : List VSEntry) (ts : List TrialRec) (x : String)
    (hx : x ∈ storeIds (indexTrials s ts).1) :
    x ∈ storeIds s ∨ x ∈ eligibleIds ts := by
  unfold indexTrials at hx
  split at hx
  · exact Or.inl hx
  · dsimp only at hx
    split at hx
    · exact Or.inl hx
    · rcases storeIds_foldl_upsert _ s x hx with h1 | h1
      · exact Or.inl h1
      · rcases h1 with ⟨e, he, hxe⟩
        rcases List.mem_filterMap.mp he with ⟨t, ht, hte⟩
        refine Or.inr (List.mem_filterMap.mpr ⟨t, ht, ?_⟩)
        rw [trialEntry_id t e hte, hxe]

/-- C1 (amended): the semantic matcher never returns more than limit matches;
and when the call starts from an empty session store (a fresh session, before
any other call has indexed trials), every returned id belongs to the id set of
the candidates that passed the eligibility filter in that same call.  With a
non-empty prior store the id containment can fail, see the counterexample. -/
theorem matchTrialsSemantic_matched_spec
    (dist : String → String → Rat) (store : List VSEntry)
    (condition patientNote : String) (age : Option Int) (sex country : Option String)
    (limit : Nat) (rawTrials : List TrialRec) (ms : List MatchRes)
    (h : (matchTrialsSemantic dist store condition patientNote age sex country limit rawTrials).1
        = MatchResponse.matched ms) :
    ms.length ≤ limit ∧
      (store = [] → ∀ m ∈ ms,
        m.id ∈ eligibleIds (filterTrialsByPatient rawTrials age sex country)) := by
  unfold matchTrialsSemantic at h
  split at h
  · simp at h
  · dsimp only at h
    split at h
    · simp at h
    · split at h
      · simp at h
      · dsimp only at h
        rw [MatchResponse.matched.injEq] at h
        subst h
        constructor
        · exact le_trans (searchStore_length _ _ _ _) (Nat.min_le_left _ _)
        · intro hst m hm
          rcases searchStore_mem _ _ _ _ m hm with ⟨e, he, hme⟩
          have hid : e.id ∈ storeIds (indexTrials store
              (filterTrialsByPatient rawTrials age sex country)).1 :=
            List.mem_map_of_mem VSEntry.id he
          rcases indexTrials_ids _ _ _ hid with h1 | h1
          · subst hst
            simp [storeIds] at h1
          · subst hme
            exact h1

/-- Witness for C1 at a concrete input: one eligible trial indexed into a fresh
store, limit 5, constant embedding distance 0. -/
theorem matchTrialsSemantic_matched_spec_witness :
    ([⟨"NEW", "T", 1 - (0 : Rat), pyTake 300 ("T" ++ " \n " ++ "C") ++ "..."⟩] : List MatchRes).length ≤ 5 ∧
      (([] : List VSEntry) = [] →
        ∀ m ∈ ([⟨"NEW", "T", 1 - (0 : Rat), pyTake 300 ("T" ++ " \n " ++ "C") ++ "..."⟩] : List MatchRes),
          m.id ∈ eligibleIds (filterTrialsByPatient
            [⟨some "NEW", none, some "T", some "C", none, none, none, none, none⟩] none none none)) :=
  matchTrialsSemantic_matched_spec (fun _ _ => (0 : Rat)) [] "c" "q" none none none 5
    [⟨some "NEW", none, some "T", some "C", none, none, none, none, none⟩]
    [⟨"NEW", "T", 1 - (0 : Rat), pyTake 300 ("T" ++ " \n " ++ "C") ++ "..."⟩] rfl

/-- C1 as stated is false on the code: the session collection persists across
calls of one server process, so with a stale entry OLD already indexed and a
nearer distance, a call whose eligibility filter passes only trial NEW returns
the id OLD, which is not an eligible-candidate id of that call. -/
theorem matchTrialsSemantic_stale_id_cex :
    responseIds (matchTrialsSemantic
        (fun _ d => if d == "old doc" then (0 : Rat) else 1)
        [⟨"OLD", "old doc", "Old"⟩] "glioma" "note" none none none 1
        [⟨some "NEW", none, some "T", some "C", none, none, none, none, none⟩]).1 = ["OLD"]
      ∧ "OLD" ∉ eligibleIds (filterTrialsByPatient
          [⟨some "NEW", none, some "T", some "C", none, none, none, none, none⟩] none none none) := by
  constructor
  · rfl
  · decide

/-- C2 (amended): every search result is one of the stored entries with score
computed as 1 - distance, results are ordered by weakly decreasing score, and
the scores lie in [0,1] provided the underlying distances lie in [0,1] (the code
does not enforce the latter, see the counterexample). -/
theorem searchStore_score_spec (dist : String → String → Rat) (store : List VSEntry)
    (q : String) (n : Nat) :
    (∀ m ∈ searchStore dist store q n,
        ∃ e, e ∈ store ∧ m.id = e.id ∧ m.score = 1 - dist q e.doc) ∧
      (searchStore dist store q n).Pairwise (fun a b => b.score ≤ a.score) ∧
      ((∀ e ∈ store, 0 ≤ dist q e.doc ∧ dist q e.doc ≤ 1) →
        ∀ m ∈ searchStore dist store q n, 0 ≤ m.score ∧ m.score ≤ 1) := by
  refine ⟨?_, searchStore_sorted dist store q n, ?_⟩
  · intro m hm
    rcases searchStore_mem dist store q n m hm with ⟨e, he, hme⟩
    subst hme
    exact ⟨e, he, rfl, rfl⟩
  · intro hb m hm
    rcases searchStore_mem dist store q n m hm with ⟨e, he, hme⟩
    subst hme
    rcases hb e he with ⟨h0, h1⟩
    constructor
    · simp only []
      linarith
    · simp only []
      linarith

/-- Witness for C2 at a concrete input: a store with one entry at distance 0
yields an in-range score. -/
theorem searchStore_score_spec_witness :
    0 ≤ 1 - (0 : Rat) ∧ 1 - (0 : Rat) ≤ 1 :=
  (searchStore_score_spec (fun _ _ => (0 : Rat)) [⟨"A", "doc", "T"⟩] "q" 1).2.2
    (fun _ _ => ⟨by decide, by decide⟩)
    ⟨"A", "T", 1 - (0 : Rat), pyTake 300 "doc" ++ "..."⟩
    (List.mem_singleton.mpr rfl)

/-- C2 as stated is false on the code: the collection metric is the default
(unnormalized squared L2), so a distance above 1 yields a returned score
outside [0,1]; here distance 2 gives score 1 - 2 < 0. -/
theorem searchStore_score_out_of_range_cex :
    (searchStore (fun _ _ => (2 : Rat)) [⟨"A", "doc", "T"⟩] "q" 1).map MatchRes.score
        = [1 - (2 : Rat)] ∧ 1 - (2 : Rat) < 0 := by
  constructor
  · rfl
  · norm_num

/-- C9: when candidates were fetched but the eligibility filter leaves none, the
matcher returns the no-eligible-candidates message branch (a normal return
value, not a raised error), and that signal differs from the branch returned
when no candidates were fetched at all, whatever condition string the latter
carries. -/
theorem matchTrialsSemantic_empty_signals
    (dist : String → String → Rat) (store : List VSEntry)
    (condition patientNote : String) (age : Option Int) (sex country : Option String)
    (limit : Nat) (rawTrials : List TrialRec)
    (hraw : rawTrials ≠ [])
    (helig : filterTrialsByPatient rawTrials age sex country = []) :
    (matchTrialsSemantic dist store condition patientNote age sex country limit rawTrials).1
        = MatchResponse.noEligible
            ("No trials matched the basic eligibility filters "
              ++ "(age/sex/location) for condition: " ++ condition) ∧
      ∀ c2 : String,
        MatchResponse.noEligible
            ("No trials matched the basic eligibility filters "
              ++ "(age/sex/location) for condition: " ++ condition)
          ≠ MatchResponse.noActiveTrials
              ("No active recruiting trials found for condition: " ++ c2) := by
  constructor
  · have h1 : rawTrials.isEmpty = false := by
      cases rawTrials with
      | nil => exact absurd rfl hraw
      | cons a l => rfl
    unfold matchTrialsSemantic
    simp only [h1, Bool.false_eq_true, if_false]
    rw [helig]
    rfl
  · intro c2 hc
    exact MatchResponse.noConfusion hc

/-- Witness for C9 at the spec scenario: one trial with bounds [18, 65], sex ALL,
United States; a 70-year-old patient leaves the filter empty and the matcher
returns the distinct no-eligible signal. -/
theorem matchTrialsSemantic_empty_signals_witness :
    (matchTrialsSemantic (fun _ _ => (0 : Rat)) [] "glioma" "note" (some 70) none none 5
        [⟨some "NCT1", none, some "T", some "C",
          some ⟨some 18, some 65, some "18 Years", some "65 Years"⟩,
          some "ALL", some ⟨["United States"]⟩, some "RECRUITING", some "PHASE2"⟩]).1
        = MatchResponse.noEligible
            ("No trials matched the basic eligibility filters "
              ++ "(age/sex/location) for condition: " ++ "glioma") ∧
      MatchResponse.noEligible
          ("No trials matched the basic eligibility filters "
            ++ "(age/sex/location) for condition: " ++ "glioma")
        ≠ MatchResponse.noActiveTrials
            ("No active recruiting trials found for condition: " ++ "glioma") := by
  have h := matchTrialsSemantic_empty_signals (fun _ _ => (0 : Rat)) [] "glioma" "note"
    (some 70) none none 5
    [⟨some "NCT1", none, some "T", some "C",
      some ⟨some 18, some 65, some "18 Years", some "65 Years"⟩,
      some "ALL", some ⟨["United States"]⟩, some "RECRUITING", some "PHASE2"⟩]
    (by decide) (by decide)
  exact ⟨h.1, h.2 "glioma"⟩

/-- A node-pattern match succeeds exactly when the key pair is present. -/
theorem any_nodeMatches_iff (ns : List GNode) (l k : String) :
    ns.any (nodeMatches l k) = true ↔ (l, k) ∈ ns.map nodeKeyOf := by
  rw [List.any_eq_true]
  constructor
  · rintro ⟨n, hn, hm⟩
    unfold nodeMatches at hm
    rcases Bool.and_eq_true_iff.mp hm with ⟨h1, h2⟩
    have h1 := beq_iff_eq.mp h1
    have h2 := beq_iff_eq.mp h2
    refine List.mem_map.mpr ⟨n, hn, ?_⟩
    unfold nodeKeyOf
    rw [h1, h2]
  · intro hmem
    rcases List.mem_map.mp hmem with ⟨n, hn, hk⟩
    refine ⟨n, hn, ?_⟩
    unfold nodeKeyOf at hk
    rcases Prod.mk.injEq .. |>.mp hk with ⟨h1, h2⟩
    unfold nodeMatches
    rw [h1, h2]
    simp

/-- An edge-pattern match succeeds exactly when the signature is present. -/
theorem any_edgeMatches_iff (es : List GEdge) (sl sk tl tk rel : String) :
    es.any (edgeMatches sl sk tl tk rel) = true ↔
      (sl, sk, tl, tk, rel) ∈ es.map edgeSigOf := by
  rw [List.any_eq_true]
  constructor
  · rintro ⟨e, he, hm⟩
    unfold edgeMatches at hm
    simp only [Bool.and_eq_true, beq_iff_eq] at hm
    rcases hm with ⟨⟨⟨⟨h1, h2⟩, h3⟩, h4⟩, h5⟩
    refine List.mem_map.mpr ⟨e, he, ?_⟩
    unfold edgeSigOf
    rw [h1, h2, h3, h4, h5]
  · intro hmem
    rcases List.mem_map.mp hmem with ⟨e, he, hk⟩
    refine ⟨e, he, ?_⟩
    unfold edgeSigOf at hk
    unfold edgeMatches
    simp only [Prod.mk.injEq] at hk
    rcases hk with ⟨h1, h2, h3, h4, h5⟩
    rw [h1, h2, h3, h4, h5]
    simp

/-- SET on node properties does not change node identities. -/
theorem setProps_nodeKeys (g : KGraph) (l k : String) (f : NodeProps → NodeProps) :
    (setProps g l k f).nodes.map nodeKeyOf = g.nodes.map nodeKeyOf := by
  unfold setProps
  dsimp only
  rw [List.map_map]
  refine List.map_congr_left ?_
  intro n _
  simp only [Function.comp_apply]
  split <;> rfl

/-- SET on node properties does not change the edges. -/
theorem setProps_edges (g : KGraph) (l k : String) (f : NodeProps → NodeProps) :
    (setProps g l k f).edges = g.edges := rfl

/-- MERGE of a node does not change the edges. -/
theorem mergeNode_edges (g : KGraph) (l k : String) (i : NodeProps) :
    (mergeNode g l k i).edges = g.edges := by
  unfold mergeNode
  split <;> rfl

/-- MERGE of an edge does not change the nodes. -/
theorem mergeEdge_nodes (g : KGraph) (sl sk tl tk rel : String) :
    (mergeEdge g sl sk tl tk rel).nodes = g.nodes := by
  unfold mergeEdge
  split <;> rfl

/-- SET of an edge context does not change the nodes. -/
theorem setEdgeContext_nodes (g : KGraph) (sl sk tl tk rel : String) (ctx : Option String) :
    (setEdgeContext g sl sk tl tk rel ctx).nodes = g.nodes := rfl

/-- SET of an edge context does not change edge identities. -/
theorem setEdgeContext_edgeSigs (g : KGraph) (sl sk tl tk rel : String) (ctx : Option String) :
    (setEdgeContext g sl sk tl tk rel ctx).edges.map edgeSigOf = g.edges.map edgeSigOf := by
  unfold setEdgeContext
  dsimp only
  rw [List.map_map]
  refine List.map_congr_left ?_
  intro e _
  simp only [Function.comp_apply]
  split <;> rfl

/-- MERGE of a node preserves well-formedness: nothing is added when the key is
present, and a fresh key cannot collide. -/
theorem wf_mergeNode (g : KGraph) (l k : String) (i : NodeProps) (h : GraphWF g) :
    GraphWF (mergeNode g l k i) := by
  unfold GraphWF mergeNode
  split
  · exact h
  · rename_i hany
    refine ⟨?_, h.2⟩
    dsimp only
    rw [List.map_append]
    rw [List.nodup_append]
    refine ⟨h.1, List.nodup_singleton _, ?_⟩
    intro x hx hx2
    simp only [List.map_cons, List.map_nil, List.mem_singleton] at hx2
    subst hx2
    exact hany ((any_nodeMatches_iff g.nodes l k).mpr hx)

/-- SET on node properties preserves well-formedness. -/
theorem wf_setProps (g : KGraph) (l k : String) (f : NodeProps → NodeProps) (h : GraphWF g) :
    GraphWF (setProps g l k f) := by
  unfold GraphWF
  rw [setProps_nodeKeys, setProps_edges]
  exact h

/-- MERGE of an edge preserves well-formedness. -/
theorem wf_mergeEdge (g : KGraph) (sl sk tl tk rel : String) (h : GraphWF g) :
    GraphWF (mergeEdge g sl sk tl tk rel) := by
  unfold GraphWF mergeEdge
  split
  · exact h
  · rename_i hany
    refine ⟨h.1, ?_⟩
    dsimp only
    rw [List.map_append, List.nodup_append]
    refine ⟨h.2, List.nodup_singleton _, ?_⟩
    intro x hx hx2
    simp only [List.map_cons, List.map_nil, List.mem_singleton] at hx2
    subst hx2
    exact hany ((any_edgeMatches_iff g.edges sl sk tl tk rel).mpr hx)

/-- SET of an edge context preserves well-formedness. -/
theorem wf_setEdgeContext (g : KGraph) (sl sk tl tk rel : String) (ctx : Option String)
    (h : GraphWF g) : GraphWF (setEdgeContext g sl sk tl tk rel ctx) := by
  unfold GraphWF
  rw [setEdgeContext_nodes, setEdgeContext_edgeSigs]
  exact h

/-- One paper-entity query preserves well-formedness. -/
theorem wf_paperEntityStep (pid pico : String) (g : KGraph) (ent : EntityRec)
    (h : GraphWF g) : GraphWF (paperEntityStep pid pico g ent) := by
  unfold paperEntityStep
  split
  · exact wf_setEdgeContext _ _ _ _ _ _ _ (wf_mergeEdge _ _ _ _ _ _ (wf_mergeNode _ _ _ _ h))
  · exact h

/-- One trial-entity query preserves well-formedness. -/
theorem wf_trialEntityStep (tid : String) (g : KGraph) (ent : EntityRec)
    (h : GraphWF g) : GraphWF (trialEntityStep tid g ent) := by
  unfold trialEntityStep
  split
  · exact wf_mergeEdge _ _ _ _ _ _ (wf_mergeNode _ _ _ _ h)
  · exact h

/-- A fold of well-formedness preserving steps preserves well-formedness. -/
theorem wf_foldl {β : Type} (step : KGraph → β → KGraph)
    (hstep : ∀ g x, GraphWF g → GraphWF (step g x)) :
    ∀ (l : List β) (g : KGraph), GraphWF g → GraphWF (l.foldl step g) := by
  intro l
  induction l with
  | nil => intro g h; exact h
  | cons x xs ih =>
    intro g h
    rw [List.foldl_cons]
    exact ih (step g x) (hstep g x h)

/-- Paper ingestion preserves well-formedness. -/
theorem wf_ingestPaper (analyze : String → AnalyzeResult) (g : KGraph) (p : PaperRec)
    (h : GraphWF g) : GraphWF (ingestPaper analyze g p) := by
  unfold ingestPaper
  exact wf_foldl _ (fun g2 e h2 => wf_paperEntityStep _ _ g2 e h2) _ _
    (wf_setProps _ _ _ _ (wf_mergeNode _ _ _ _ h))

/-- Successful trial ingestion preserves well-formedness. -/
theorem wf_ingestTrial (analyze : String → AnalyzeResult) (g : KGraph) (t : TrialRec)
    (G : KGraph) (h : GraphWF g) (hok : ingestTrial analyze g t = Except.ok G) :
    GraphWF G := by
  unfold ingestTrial at hok
  split at hok
  · rw [Except.ok.injEq] at hok
    subst hok
    exact wf_foldl _ (fun g2 e h2 => wf_trialEntityStep _ g2 e h2) _ _
      (wf_setProps _ _ _ _ (wf_mergeNode _ _ _ _ h))
  · exact Except.noConfusion hok

/-- A successful monadic fold of trial ingestions preserves well-formedness. -/
theorem wf_foldlM_trials (analyze : String → AnalyzeResult) :
    ∀ (ts : List TrialRec) (g G : KGraph), GraphWF g →
      ts.foldlM (ingestTrial analyze) g = Except.ok G → GraphWF G := by
  intro ts
  induction ts with
  | nil =>
    intro g G h hok
    simp only [List.foldlM_nil, pure, Except.pure] at hok
    rw [Except.ok.injEq] at hok
    subst hok
    exact h
  | cons t ts ih =>
    intro g G h hok
    rw [List.foldlM_cons] at hok
    cases h2 : ingestTrial analyze g t with
    | error e =>
      rw [h2] at hok
      simp only [Bind.bind, Except.bind] at hok
      exact Except.noConfusion hok
    | ok g2 =>
      rw [h2] at hok
      simp only [Bind.bind, Except.bind] at hok
      exact ih g2 G (wf_ingestTrial analyze g t g2 h h2) hok

/-- The cleared store is well-formed. -/
theorem wf_emptyKGraph : GraphWF emptyKGraph := by
  constructor <;> simp [emptyKGraph]

/-- C5: build_graph clears the store first, so its result does not depend on the
prior graph state; two builds from identical inputs with an identical extractor
yield graphs with identical node and edge counts (indeed identical graphs); and
within one build the MERGE-based upserts never create two nodes with the same
label and key nor two edges with the same (source, target, relation) triple,
also when the same paper or trial occurs twice in the input. -/
theorem buildGraph_rebuild_spec (analyze : String → AnalyzeResult) (g0 g1 : KGraph)
    (papers : List PaperRec) (trialsList : List TrialRec) :
    buildGraph analyze g0 papers trialsList = buildGraph analyze g1 papers trialsList ∧
      (∀ G1 G2, buildGraph analyze g0 papers trialsList = Except.ok G1 →
        buildGraph analyze G1 papers trialsList = Except.ok G2 →
        G1.nodes.length = G2.nodes.length ∧ G1.edges.length = G2.edges.length) ∧
      (∀ G, buildGraph analyze g0 papers trialsList = Except.ok G → GraphWF G) := by
  refine ⟨rfl, ?_, ?_⟩
  · intro G1 G2 hA hB
    have he : buildGraph analyze G1 papers trialsList
        = buildGraph analyze g0 papers trialsList := rfl
    rw [he, hA, Except.ok.injEq] at hB
    subst hB
    exact ⟨rfl, rfl⟩
  · intro G hG
    unfold buildGraph at hG
    exact wf_foldlM_trials analyze trialsList _ G
      (wf_foldl _ (fun g p h => wf_ingestPaper analyze g p h) papers emptyKGraph wf_emptyKGraph)
      hG

/-- Witness for C5 at a concrete input: one paper and one trial sharing one
extracted chemical entity build a well-formed three-node, two-edge graph. -/
theorem buildGraph_rebuild_spec_witness :
    GraphWF (KGraph.mk
      [⟨"Paper", "p1", ⟨some "p1", none, some "PT", some "AB", none, none, none, none, none, some "Outcome"⟩⟩,
       ⟨"Chemical", "aspirin", ⟨none, some "aspirin", none, none, none, none, none, none, none, none⟩⟩,
       ⟨"Trial", "NCT1", ⟨some "NCT1", none, some "TT", none, some "CR", none, none, none, none, none⟩⟩]
      [⟨"Paper", "p1", "Chemical", "aspirin", "MENTIONS", some "Outcome"⟩,
       ⟨"Trial", "NCT1", "Chemical", "aspirin", "INVESTIGATES", none⟩]) :=
  (buildGraph_rebuild_spec (fun _ => ⟨"Outcome", [⟨"aspirin", "Chemical"⟩]⟩)
      emptyKGraph emptyKGraph
      [⟨"p1", "PT", some "AB", none, none⟩]
      [⟨some "NCT1", none, some "TT", some "CR", none, none, none, none, none⟩]).2.2
    _ rfl

/-- The seen set returned by the node loop is exactly the id list of the emitted
nodes, given that this held of the accumulators. -/
theorem visNodesAux_seen_ids :
    ∀ (l : List GNode) (acc : List VisNode) (seen : List String)
      (p : List VisNode × List String),
      seen = acc.map VisNode.id → visNodesAux l acc seen = Except.ok p →
      p.2 = p.1.map VisNode.id := by
  intro l
  induction l with
  | nil =>
    intro acc seen p hinv h
    unfold visNodesAux at h
    rw [Except.ok.injEq] at h
    subst h
    exact hinv
  | cons n rest ih =>
    intro acc seen p hinv h
    unfold visNodesAux at h
    dsimp only at h
    split at h
    · exact ih acc seen p hinv h
    · split at h
      · exact ih acc seen p hinv h
      · split at h
        · exact Except.noConfusion h
        · refine ih _ _ p ?_ h
          rw [List.map_append, hinv]
          rfl

/-- Every emitted visualization edge has both endpoint ids in the seen set. -/
theorem visEdges_mem (g : KGraph) (seen : List String) (e : VisEdge)
    (he : e ∈ visEdges g seen) : e.source ∈ seen ∧ e.target ∈ seen := by
  unfold visEdges at he
  rcases List.mem_filterMap.mp he with ⟨ge, _, hsome⟩
  split at hsome
  · split at hsome
    · rename_i s t heq
      split at hsome
      · rename_i hcond
        rw [Option.some.injEq] at hsome
        subst hsome
        rcases Bool.and_eq_true_iff.mp hcond with ⟨h1, h2⟩
        exact ⟨List.mem_of_elem_eq_true h1, List.mem_of_elem_eq_true h2⟩
      · exact Option.noConfusion hsome
    · exact Option.noConfusion hsome
  · exact Option.noConfusion hsome

/-- C6: whenever get_visualization_data returns, every edge of its edge list has
both its source id and its target id present among the ids of its node list (no
dangling edges in the visualization payload). -/
theorem getVisualizationData_no_dangling (g : KGraph) (ns : List VisNode)
    (es : List VisEdge) (h : getVisualizationData g = Except.ok (ns, es)) :
    ∀ e ∈ es, e.source ∈ ns.map VisNode.id ∧ e.target ∈ ns.map VisNode.id := by
  unfold getVisualizationData at h
  cases hv : visNodesAux g.nodes [] [] with
  | error msg =>
    rw [hv] at h
    exact Except.noConfusion h
  | ok p =>
    rw [hv] at h
    rw [Except.ok.injEq, Prod.mk.injEq] at h
    rcases h with ⟨hns, hes⟩
    have hseen : p.2 = p.1.map VisNode.id := visNodesAux_seen_ids g.nodes [] [] p rfl hv
    intro e he
    rw [← hes] at he
    have hm := visEdges_mem g p.2 e he
    rw [hseen, hns] at hm
    exact hm

/-- Witness for C6 at a concrete input: a two-node, one-edge graph whose edge
endpoints both appear in the emitted node id list. -/
theorem getVisualizationData_no_dangling_witness :
    (⟨"aspirin", "glioma", "TREATS"⟩ : VisEdge).source ∈
        ([⟨"aspirin", "aspirin" ++ "...", "💊 DRUG: " ++ "aspirin", "#42a5f5", 25⟩,
          ⟨"glioma", "glioma" ++ "...", "🦠 DISEASE: " ++ "glioma", "#ffa726", 25⟩]
            : List VisNode).map VisNode.id ∧
      (⟨"aspirin", "glioma", "TREATS"⟩ : VisEdge).target ∈
        ([⟨"aspirin", "aspirin" ++ "...", "💊 DRUG: " ++ "aspirin", "#42a5f5", 25⟩,
          ⟨"glioma", "glioma" ++ "...", "🦠 DISEASE: " ++ "glioma", "#ffa726", 25⟩]
            : List VisNode).map VisNode.id :=
  getVisualizationData_no_dangling
    (KGraph.mk
      [⟨"Chemical", "aspirin", ⟨none, some "aspirin", none, none, none, none, none, none, none, none⟩⟩,
       ⟨"Disease", "glioma", ⟨none, some "glioma", none, none, none, none, none, none, none, none⟩⟩]
      [⟨"Chemical", "aspirin", "Disease", "glioma", "TREATS", none⟩])
    [⟨"aspirin", "aspirin" ++ "...", "💊 DRUG: " ++ "aspirin", "#42a5f5", 25⟩,
     ⟨"glioma", "glioma" ++ "...", "🦠 DISEASE: " ++ "glioma", "#ffa726", 25⟩]
    [⟨"aspirin", "glioma", "TREATS"⟩]
    rfl
    ⟨"aspirin", "glioma", "TREATS"⟩
    (List.mem_singleton.mpr rfl)

/-- C7 (amended): calculate_metrics raises exactly when the prediction and
ground-truth lists differ in length, or when a truthy (non-empty) scores list
differs in length from the predictions; on all other inputs it returns a metrics
record.  An empty scores list is falsy in Python and skips the length check,
see the counterexample. -/
theorem calculateMetrics_error_iff (allPredictions allGroundTruth : List (List String))
    (allScores : Option (List (List Rat))) :
    (calculateMetrics allPredictions allGroundTruth allScores).isOk = true ↔
      (allPredictions.length = allGroundTruth.length ∧
        (scoresTruthy allScores = true →
          (allScores.getD []).length = allPredictions.length)) := by
  unfold calculateMetrics
  split
  · rename_i h1
    apply iff_of_false
    · simp [Except.isOk, Except.toBool]
    · rintro ⟨he, _⟩
      exact h1 he
  · rename_i h1
    split
    · rename_i h2
      apply iff_of_false
      · simp [Except.isOk, Except.toBool]
      · rintro ⟨_, himp⟩
        exact h2.2 (himp h2.1)
    · rename_i h2
      apply iff_of_true
      · rfl
      · refine ⟨not_ne_iff.mp h1, ?_⟩
        intro ht
        by_contra hne
        exact h2 ⟨ht, hne⟩

/-- Witness for C7 at a concrete input: one well-shaped case with no scores
yields a metrics record, not an error. -/
theorem calculateMetrics_error_iff_witness :
    (calculateMetrics [["NCT1"]] [["NCT1"]] none).isOk = true :=
  (calculateMetrics_error_iff [["NCT1"]] [["NCT1"]] none).mpr (by decide)

/-- C7 as stated is false on the code: an empty scores list is supplied and its
length 0 differs from the one prediction list, yet calculate_metrics returns a
record instead of raising, because an empty Python list is falsy and skips the
length check. -/
theorem calculateMetrics_empty_scores_cex :
    (calculateMetrics [["NCT1"]] [["NCT1"]] (some [])).isOk = true ∧
      ([] : List (List Rat)).length ≠ ([["NCT1"]] : List (List String)).length := by
  constructor
  · rfl
  · decide

/-- C8: analyze_text never propagates an internal failure: it is total, short or
empty text short-circuits to the neutral (Background, no entities) result, a
failing classification call degrades to the neutral label "Unknown", and a
failing NER call degrades to an empty entity list. -/
theorem analyzeText_degrades (picoPipe : String → Except String PicoOut)
    (nerPipe : String → Except String (List NerEnt)) (text : String) (e1 e2 : String) :
    (∃ r : AnalyzeResult, analyzeText picoPipe nerPipe text = r) ∧
      ((text == "" || pyLen text < 10) = true →
        analyzeText picoPipe nerPipe text = ⟨"Background", []⟩) ∧
      ((text == "" || pyLen text < 10) = false →
        picoPipe (pyTake 512 text) = Except.error e1 →
        (analyzeText picoPipe nerPipe text).pico = "Unknown") ∧
      ((text == "" || pyLen text < 10) = false →
        nerPipe (pyTake 512 text) = Except.error e2 →
        (analyzeText picoPipe nerPipe text).entities = []) := by
  refine ⟨⟨_, rfl⟩, ?_, ?_, ?_⟩
  · intro hshort
    unfold analyzeText
    simp only [hshort, if_true]
  · intro hlong hperr
    unfold analyzeText
    simp only [hlong, Bool.false_eq_true, if_false]
    rw [hperr]
  · intro hlong hnerr
    unfold analyzeText
    simp only [hlong, Bool.false_eq_true, if_false]
    rw [hnerr]

/-- Witness for C8 at a concrete input: both external pipelines failing on a
long-enough text yields the neutral label and no entities. -/
theorem analyzeText_degrades_witness :
    (analyzeText (fun _ => Except.error "pico down") (fun _ => Except.error "ner down")
        "abcdefghijk").pico = "Unknown" ∧
      (analyzeText (fun _ => Except.error "pico down") (fun _ => Except.error "ner down")
        "abcdefghijk").entities = [] :=
  ⟨(analyzeText_degrades (fun _ => Except.error "pico down")
      (fun _ => Except.error "ner down") "abcdefghijk" "pico down" "ner down").2.2.1
      (by decide) rfl,
   (analyzeText_degrades (fun _ => Except.error "pico down")
      (fun _ => Except.error "ner down") "abcdefghijk" "pico down" "ner down").2.2.2
      (by decide) rfl⟩
